import Mathlib

/-!
# URL shortener: the in-memory registry and its three HTTP handlers

A shallow embedding of `URL/backend-tests/main.go`.

Modelling conventions
* `time.Time` is an instant on one integer time line, counted in nanoseconds;
  `Time.After` is `>` and `Time.Add` is integer addition.
* `time.Duration` is a signed 64-bit integer: the product
  `time.Duration(validity) * time.Minute` wraps modulo `2^64`.
* `urlStore` (a Go map holding record pointers) is a partial function from
  short codes to records; writing through a record pointer is an update of the
  entry the pointer was read from.
* `time.Now()` readings, the decoded JSON body, the referrer header, the
  output of `math/rand`, the `Format(time.RFC3339)` rendering and the scheme
  and host `url.Parse` finds in a URL are inputs of the handlers.
* A handler's answer is what it writes on the response writer: the body and
  status of `http.Error(w, body, status)`, the `Location` header and status
  that `http.Redirect(w, r, url, status)` sets, or a JSON value written with a
  status.
-/

namespace URLShortener

/-! ## Data model -/

/-- An instant (`time.Time`), in nanoseconds on a single time line. -/
abbrev Instant := Int

/-- Go `CreateShortURLRequest`: the decoded JSON body of a create request.
An omitted `validity` or `shortcode` decodes to `0` and `""`. -/
structure CreateShortURLRequest where
  URL : String
  Validity : Int
  Shortcode : String
  deriving DecidableEq, Repr

/-- Go `CreateShortURLResponse`. -/
structure CreateShortURLResponse where
  ShortLink : String
  Expiry : String
  deriving DecidableEq, Repr

/-- Go `ClickData`. -/
structure ClickData where
  Time : Instant
  Referrer : String
  Geo : String
  deriving DecidableEq, Repr

/-- Go `URLData`. -/
structure URLData where
  OriginalURL : String
  CreatedAt : Instant
  Expiry : Instant
  Clicks : List ClickData
  deriving DecidableEq, Repr

/-- The global `urlStore`: short code to record. -/
abbrev Store := String → Option URLData

/-- The store at process start: `make(map[string]*URLData)`. -/
def emptyStore : Store := fun _ => none

/-- The map write `urlStore[code] = data`. -/
def Store.set (s : Store) (code : String) (data : URLData) : Store :=
  fun k => if k = code then some data else s k

def host : String := "http://localhost:8080/"

def defaultValidityMinutes : Int := 30

/-- The constant `time.Minute`, in nanoseconds. -/
def Minute : Int := 60000000000

def StatusOK : Nat := 200
def StatusCreated : Nat := 201
def StatusFound : Nat := 302
def StatusBadRequest : Nat := 400
def StatusNotFound : Nat := 404
def StatusMethodNotAllowed : Nat := 405
def StatusGone : Nat := 410

def MethodPost : String := "POST"

/-- The part of `*http.Request` the handlers read. `Body` is the result of
`json.NewDecoder(r.Body).Decode(&req)`: `none` when decoding fails. -/
structure Request where
  Method : String
  Path : String
  Body : Option CreateShortURLRequest
  Referer : String
  deriving DecidableEq, Repr

/-- The JSON object `statsHandler` encodes. -/
structure StatsResponse where
  totalClicks : Nat
  originalURL : String
  createdAt : String
  expiry : String
  clicks : List ClickData
  deriving DecidableEq, Repr

/-- What a handler writes to its `http.ResponseWriter`. -/
inductive Response where
  /-- The call `http.Error(w, body, status)`. -/
  | error (body : String) (status : Nat)
  /-- `w.WriteHeader(http.StatusCreated)` followed by the encoded response. -/
  | created (resp : CreateShortURLResponse)
  /-- The `Location` header and the status set by `http.Redirect(w, r, url, status)`. -/
  | redirect (location : String) (status : Nat)
  /-- The encoded statistics, written with the default status. -/
  | stats (resp : StatsResponse)
  deriving DecidableEq, Repr

/-- The HTTP status code of an answer. -/
def Response.status : Response → Nat
  | .error _ st => st
  | .created _ => StatusCreated
  | .redirect _ st => st
  | .stats _ => StatusOK

/-! ## Library functions used by the handlers -/

/-- Two's-complement wrap of an integer into the signed 64-bit range. -/
def wrapInt64 (x : Int) : Int := (x + 2 ^ 63) % 2 ^ 64 - 2 ^ 63

/-- Go `strings.TrimPrefix`. -/
def stringsTrimPrefix (s pre : String) : String :=
  if pre.data.isPrefixOf s.data then String.mk (s.data.drop pre.data.length) else s

/-- Splitting a character list at every occurrence of `sep`. -/
def splitChars (sep : Char) : List Char → List (List Char)
  | [] => [[]]
  | c :: cs =>
    if c = sep then [] :: splitChars sep cs
    else
      match splitChars sep cs with
      | [] => [[c]]
      | p :: ps => (c :: p) :: ps

/-- Go `strings.Split(s, sep)` for a one-character separator. -/
def stringsSplit (s : String) (sep : Char) : List String :=
  (splitChars sep s.data).map String.mk

/-- The fields of the `*url.URL` returned by `url.Parse` that `http.Redirect` reads. -/
structure ParsedURL where
  Scheme : String
  Host : String
  deriving DecidableEq, Repr

/-- Go `path.Split`: the directory part, up to and including the last `/`, and
the file part after it. -/
def pathSplit (path : List Char) : List Char × List Char :=
  ((path.reverse.dropWhile (· ≠ '/')).reverse, (path.reverse.takeWhile (· ≠ '/')).reverse)

/-- The backtracking of `path.Clean` on a `..` element: from write index `w`
(already decremented once), step back while above `dotdot` and not on a `/`. -/
def cleanBacktrack (out : List Char) (dotdot : Nat) : Nat → Nat
  | 0 => 0
  | w + 1 =>
    if w + 1 > dotdot ∧ out.getD (w + 1) '/' ≠ '/' then cleanBacktrack out dotdot w else w + 1

/-- The main loop of Go `path.Clean`: the unread rest of the path, the output
written so far and the index `dotdot` below which `..` may not remove. Every
round reads at least one character, so `fuel` the length of the path is enough. -/
def cleanLoop (rooted : Bool) : Nat → List Char → List Char → Nat → List Char
  | 0, _, out, _ => out
  | _ + 1, [], out, _ => out
  | fuel + 1, c :: rest, out, dotdot =>
    if c = '/' then cleanLoop rooted fuel rest out dotdot
    else if c = '.' ∧ (rest = [] ∨ rest.head? = some '/') then
      cleanLoop rooted fuel rest out dotdot
    else if c = '.' ∧ rest.head? = some '.' ∧ (rest.tail = [] ∨ rest.tail.head? = some '/') then
      if out.length > dotdot then
        cleanLoop rooted fuel rest.tail
          (out.take (cleanBacktrack out dotdot (out.length - 1))) dotdot
      else if rooted = false then
        let out1 := if out.length > 0 then out ++ ['/'] else out
        cleanLoop rooted fuel rest.tail (out1 ++ ['.', '.']) (out1.length + 2)
      else cleanLoop rooted fuel rest.tail out dotdot
    else
      let out1 :=
        if (rooted = true ∧ out.length ≠ 1) ∨ (rooted = false ∧ out.length ≠ 0) then out ++ ['/']
        else out
      cleanLoop rooted fuel ((c :: rest).dropWhile (· ≠ '/'))
        (out1 ++ (c :: rest).takeWhile (· ≠ '/')) dotdot

/-- Go `path.Clean`. -/
def pathClean (path : List Char) : List Char :=
  match path with
  | [] => ['.']
  | c :: rest =>
    let out :=
      if c = '/' then cleanLoop true path.length rest ['/'] 1
      else cleanLoop false path.length path [] 0
    if out = [] then ['.'] else out

/-- The UTF-8 bytes of a character. -/
def utf8Bytes (c : Char) : List Nat :=
  let n := c.toNat
  if n < 128 then [n]
  else if n < 2048 then [192 + n / 64, 128 + n % 64]
  else if n < 65536 then [224 + n / 4096, 128 + n / 64 % 64, 128 + n % 64]
  else [240 + n / 262144, 128 + n / 4096 % 64, 128 + n / 64 % 64, 128 + n % 64]

/-- The alphabet of `strconv.AppendInt(b, x, 16)`. -/
def hexDigits : List Char := "0123456789abcdef".data

/-- One lower-case hexadecimal digit. -/
def hexDigit (d : Nat) : Char := hexDigits.getD d '0'

/-- Go `hexEscapeNonASCII` of `net/http`: every byte from `0x80` up is written
as `%` and its two hexadecimal digits, every other byte as it is. -/
def hexEscapeNonASCII (s : String) : String :=
  String.mk (s.data.flatMap fun c =>
    if c.toNat < 128 then [c]
    else (utf8Bytes c).flatMap fun b => ['%', hexDigit (b / 16), hexDigit (b % 16)])

/-- The `Location` header `http.Redirect(w, r, url, code)` sets, for a request
with path `reqPath`. `parseURL` is `url.Parse`, `none` when it fails. A URL in
which it finds neither scheme nor host is made absolute against the request
path and cleaned, its trailing slash and its query kept; in every case the
bytes from `0x80` up are percent-escaped. -/
def httpRedirectLocation (parseURL : String → Option ParsedURL) (reqPath url : String) : String :=
  let rewritten : String :=
    match parseURL url with
    | none => url
    | some u =>
      if u.Scheme = "" ∧ u.Host = "" then
        let oldpath := if reqPath = "" then "/" else reqPath
        let url1 :=
          if url.data.head? ≠ some '/' then (pathSplit oldpath.data).1 ++ url.data else url.data
        let path := url1.takeWhile (· ≠ '?')
        let query := url1.dropWhile (· ≠ '?')
        let cleaned := pathClean path
        let cleaned :=
          if path.getLast? = some '/' ∧ cleaned.getLast? ≠ some '/' then cleaned ++ ['/']
          else cleaned
        String.mk (cleaned ++ query)
      else url
  hexEscapeNonASCII rewritten

/-! ## Short code generation -/

/-- The alphabet of `generateShortCode`. -/
def letters : List Char :=
  "abcdefghijklmnopqrstuvwxyzABCDEFGHIJKLMNOPQRSTUVWXYZ0123456789".data

/-- Go `rand.Intn(n)` on the `i`-th raw draw of the generator. -/
def Intn (src : Nat → Nat) (i n : Nat) : Nat := src i % n

/-- Go `generateShortCode(n)`, reading the draws `src 0 .. src (n-1)`. -/
def generateShortCode (n : Nat) (src : Nat → Nat) : String :=
  String.mk ((List.range n).map fun i =>
    letters.get ⟨Intn src i letters.length, Nat.mod_lt _ (by decide)⟩)

/-- The generation loop of `createShortURLHandler` (the `code == ""` branch):
draw a six-character code until one is not a key of the store. Each round
consumes six draws; `fuel` bounds the number of rounds, and `none` stands for a
loop that has not ended within them. -/
def pickCode (s : Store) : Nat → (Nat → Nat) → Option String
  | 0, _ => none
  | fuel + 1, src =>
    let code := generateShortCode 6 src
    if (s code).isSome then pickCode s fuel (fun i => src (i + 6)) else some code

/-! ## The handlers -/

def invalidBodyMsg : String := "\x7b\"error\":\"Invalid request body or missing URL\"\x7d"
def shortcodeExistsMsg : String := "\x7b\"error\":\"Shortcode already exists\"\x7d"
def notFoundMsg : String := "\x7b\"error\":\"Shortcode not found\"\x7d"
def expiredMsg : String := "\x7b\"error\":\"Short URL has expired\"\x7d"
def invalidPathMsg : String := "\x7b\"error\":\"Invalid path\"\x7d"

/-- The record `createShortURLHandler` builds once a code is chosen. -/
def newRecord (req : CreateShortURLRequest) (now : Instant) : URLData :=
  let validity := if req.Validity = 0 then defaultValidityMinutes else req.Validity
  let createdAt := now
  let expiry := createdAt + wrapInt64 (validity * Minute)
  { OriginalURL := req.URL, CreatedAt := createdAt, Expiry := expiry, Clicks := [] }

/-- The tail of `createShortURLHandler` once `code` is chosen: build the
record, write it to the map, answer 201. -/
def insertRecord (fmt : Instant → String) (now : Instant) (s : Store)
    (req : CreateShortURLRequest) (code : String) : Response × Store :=
  let data := newRecord req now
  (.created { ShortLink := host ++ code, Expiry := fmt data.Expiry }, s.set code data)

/-- Go `createShortURLHandler`. `fmt` renders an instant as RFC 3339 text,
`src` is the stream of random draws, `fuel` bounds the generation loop, `now`
is the reading of `time.Now()`. The result is the answer and the store after
the call; `none` stands for a generation loop that has not ended. -/
def createShortURLHandler (fmt : Instant → String) (src : Nat → Nat) (fuel : Nat)
    (now : Instant) (s : Store) (r : Request) : Option (Response × Store) :=
  if r.Method ≠ MethodPost then
    some (.error "Method not allowed" StatusMethodNotAllowed, s)
  else
    match r.Body with
    | none => some (.error invalidBodyMsg StatusBadRequest, s)
    | some req =>
      if req.URL = "" then some (.error invalidBodyMsg StatusBadRequest, s)
      else if req.Shortcode = "" then
        match pickCode s fuel src with
        | none => none
        | some code => some (insertRecord fmt now s req code)
      else if (s req.Shortcode).isSome then
        some (.error shortcodeExistsMsg StatusBadRequest, s)
      else some (insertRecord fmt now s req req.Shortcode)

/-- Go `redirectHandler`. `parseURL` is `url.Parse` as `http.Redirect` calls it,
`now` is the clock reading compared with the expiry, `nowClick` the later
reading stored in the click. -/
def redirectHandler (parseURL : String → Option ParsedURL) (now nowClick : Instant)
    (s : Store) (r : Request) : Response × Store :=
  let code := stringsTrimPrefix r.Path "/"
  match s code with
  | none => (.error notFoundMsg StatusNotFound, s)
  | some data =>
    if now > data.Expiry then (.error expiredMsg StatusGone, s)
    else
      let click : ClickData := { Time := nowClick, Referrer := r.Referer, Geo := "IN" }
      (.redirect (httpRedirectLocation parseURL r.Path data.OriginalURL) StatusFound,
       s.set code { data with Clicks := data.Clicks ++ [click] })

/-- Go `statsHandler`; it writes nothing to the store and reads no clock. The
pattern `[_, _, code]` is the test `len(parts) != 3` followed by `parts[2]`. -/
def statsHandler (fmt : Instant → String) (s : Store) (r : Request) : Response :=
  match stringsSplit r.Path '/' with
  | [_, _, code] =>
    match s code with
    | none => .error notFoundMsg StatusNotFound
    | some data =>
      .stats { totalClicks := data.Clicks.length
               originalURL := data.OriginalURL
               createdAt := fmt data.CreatedAt
               expiry := fmt data.Expiry
               clicks := data.Clicks }
  | _ => .error invalidPathMsg StatusBadRequest

/-! ## Visits -/

/-- One call of `redirectHandler`: its two clock readings and its request. -/
structure Visit where
  now : Instant
  nowClick : Instant
  request : Request

/-- The click `redirectHandler` records for a visit. -/
def Visit.click (v : Visit) : ClickData :=
  { Time := v.nowClick, Referrer := v.request.Referer, Geo := "IN" }

/-! ## Sample inputs -/

/-- A rendering of instants used for the concrete runs below. -/
def sampleFormat : Instant → String := fun t => toString t

/-- The scheme and host `url.Parse` finds in the three URLs of the concrete
runs below; no other URL is parsed there. -/
def sampleParseURL : String → Option ParsedURL := fun u =>
  if u = "example.com" then some { Scheme := "", Host := "" }
  else if u = "https://example.com" ∨ u = "https://example.com/é" then
    some { Scheme := "https", Host := "example.com" }
  else none

/-- The body `{"url":"https://example.com","validity":1,"shortcode":"abc123"}`. -/
def sampleCreateBody : CreateShortURLRequest :=
  { URL := "https://example.com", Validity := 1, Shortcode := "abc123" }

/-- A `POST /shorturls` request carrying `sampleCreateBody`. -/
def sampleCreate : Request :=
  { Method := "POST", Path := "/shorturls", Body := some sampleCreateBody, Referer := "" }

/-- The record `sampleCreate` inserts when handled at instant `1000`. -/
def sampleRecord : URLData :=
  { OriginalURL := "https://example.com", CreatedAt := 1000, Expiry := 60000001000, Clicks := [] }

/-- The store after `sampleCreate` is handled at instant `1000` on the empty store. -/
def sampleStore : Store := emptyStore.set "abc123" sampleRecord

/-- A `GET /abc123` request. -/
def sampleVisit : Request :=
  { Method := "GET", Path := "/abc123", Body := none, Referer := "https://ref.example" }

/-- The answer to `sampleCreate` handled at instant `1000`. -/
def sampleCreated : CreateShortURLResponse :=
  { ShortLink := "http://localhost:8080/abc123", Expiry := sampleFormat 60000001000 }

/-- A `GET /shorturls/abc123` request. -/
def sampleStats : Request :=
  { Method := "GET", Path := "/shorturls/abc123", Body := none, Referer := "" }

/-- A `POST /shorturls` request with body `{"url":"example.com","shortcode":"abc123"}`. -/
def schemelessCreate : Request :=
  { Method := "POST", Path := "/shorturls",
    Body := some { URL := "example.com", Validity := 0, Shortcode := "abc123" }, Referer := "" }

/-- The store after `schemelessCreate` is handled at instant `1000` on the empty store. -/
def schemelessStore : Store :=
  emptyStore.set "abc123"
    { OriginalURL := "example.com", CreatedAt := 1000, Expiry := 1800000001000, Clicks := [] }

/-- A `POST /shorturls` request with body
`{"url":"https://example.com/é","shortcode":"abc123"}`. -/
def accentCreate : Request :=
  { Method := "POST", Path := "/shorturls",
    Body := some { URL := "https://example.com/é", Validity := 0, Shortcode := "abc123" },
    Referer := "" }

/-- The store after `accentCreate` is handled at instant `1000` on the empty store. -/
def accentStore : Store :=
  emptyStore.set "abc123"
    { OriginalURL := "https://example.com/é", CreatedAt := 1000, Expiry := 1800000001000,
      Clicks := [] }

/-- A `POST /shorturls` request asking for the code `a/b`. -/
def slashCreate : Request :=
  { Method := "POST", Path := "/shorturls",
    Body := some { URL := "https://example.com", Validity := 1, Shortcode := "a/b" },
    Referer := "" }

/-- The store after `slashCreate` is handled at instant `1000` on the empty store. -/
def slashStore : Store := emptyStore.set "a/b" sampleRecord

/-- A `GET /shorturls/a/b` request. -/
def slashStats : Request :=
  { Method := "GET", Path := "/shorturls/a/b", Body := none, Referer := "" }

/-- A `POST /shorturls` request with body
`{"url":"https://example.com","validity":153722868,"shortcode":"abc123"}`. -/
def overflowCreate : Request :=
  { Method := "POST", Path := "/shorturls",
    Body := some { URL := "https://example.com", Validity := 153722868, Shortcode := "abc123" },
    Referer := "" }

/-! ## Sequences of operations -/

/-- One operation on the registry, with the inputs its handler reads. -/
inductive Op where
  | create (src : Nat → Nat) (fuel : Nat) (now : Instant) (r : Request)
  | resolve (now nowClick : Instant) (r : Request)
  | stats (r : Request)

/-- The answer and the store after one operation; `none` stands for a create
whose generation loop has not ended. -/
def applyOp (fmt : Instant → String) (parseURL : String → Option ParsedURL) (s : Store) :
    Op → Option (Response × Store)
  | .create src fuel now r => createShortURLHandler fmt src fuel now s r
  | .resolve now nowClick r => some (redirectHandler parseURL now nowClick s r)
  | .stats r => some (statsHandler fmt s r, s)

/-- Every key of `s` is a key of `s'` with the same URL, creation instant and
expiry, and its click list in `s` is an initial segment of its click list in `s'`. -/
def Preserved (s s' : Store) : Prop :=
  ∀ k d, s k = some d →
    ∃ d', s' k = some d' ∧ d'.OriginalURL = d.OriginalURL ∧ d'.CreatedAt = d.CreatedAt ∧
      d'.Expiry = d.Expiry ∧ d.Clicks <+: d'.Clicks

/-! ## Concurrent creates

`createShortURLHandler` touches the map in two separate lock regions: the
lookup under `storeMu.RLock()` and, later, the write under `storeMu.Lock()`.
Between the two the call holds no lock. A running call is therefore cut into
two atomic steps, and a schedule interleaves the steps of several calls. -/

/-- Where a running create call stands. -/
inductive CreatePhase where
  /-- Before a lookup: no code chosen yet, or the last generated one was taken. -/
  | checking
  /-- The lookup found no entry under `code`; the read lock is released and the
  write lock not yet taken. -/
  | holding (code : String)
  /-- The answer is written. -/
  | answered (resp : Response)
  deriving DecidableEq, Repr

/-- A running create call whose request passed the method and body checks:
its decoded body, its reading of `time.Now()` and its progress. -/
structure CreateCall where
  req : CreateShortURLRequest
  now : Instant
  phase : CreatePhase
  deriving DecidableEq, Repr

/-- The shared state: the map, the number of draws taken from the shared
random generator, and the running calls. -/
structure World where
  store : Store
  drawn : Nat
  calls : List CreateCall

/-- One atomic step of call `i`. In phase `checking` the call generates a code
when none was requested and looks it up (lines 79-97); in phase `holding` it
builds the record and writes it to the map (lines 99-125). -/
def stepCall (fmt : Instant → String) (src : Nat → Nat) (w : World) (i : Nat) : World :=
  match w.calls.get? i with
  | none => w
  | some c =>
    match c.phase with
    | .checking =>
      if c.req.Shortcode = "" then
        let code := generateShortCode 6 (fun j => src (j + w.drawn))
        let next := if (w.store code).isSome then CreatePhase.checking else CreatePhase.holding code
        { w with drawn := w.drawn + 6, calls := w.calls.set i { c with phase := next } }
      else
        let next :=
          if (w.store c.req.Shortcode).isSome then
            CreatePhase.answered (.error shortcodeExistsMsg StatusBadRequest)
          else CreatePhase.holding c.req.Shortcode
        { w with calls := w.calls.set i { c with phase := next } }
    | .holding code =>
      let out := insertRecord fmt c.now w.store c.req code
      { w with store := out.2, calls := w.calls.set i { c with phase := .answered out.1 } }
    | .answered _ => w

/-- Running a schedule: the calls take their steps in the listed order. -/
def runSchedule (fmt : Instant → String) (src : Nat → Nat) (w : World) : List Nat → World
  | [] => w
  | i :: rest => runSchedule fmt src (stepCall fmt src w i) rest

/-- Draws of the shared generator in which the first two generated codes are
both `abcdef` and the third is `bcdefg`. -/
def raceDraws : Nat → Nat := fun i => if i < 12 then i % 6 else i % 6 + 1

/-- Two create calls without a requested code, on the empty store. -/
def raceStart : World :=
  { store := emptyStore
    drawn := 0
    calls := [ { req := { URL := "https://a.example", Validity := 0, Shortcode := "" },
                 now := 1000, phase := .checking },
               { req := { URL := "https://b.example", Validity := 0, Shortcode := "" },
                 now := 2000, phase := .checking } ] }

/-! ## Basic facts -/

theorem letters_length : letters.length = 62 := by decide

theorem Store.set_same (s : Store) (code : String) (data : URLData) :
    s.set code data code = some data := by
  simp [Store.set]

theorem Store.set_other (s : Store) (code k : String) (data : URLData) (h : k ≠ code) :
    s.set code data k = s k := by
  simp [Store.set, h]

theorem stringsTrimPrefix_slash (c : String) : stringsTrimPrefix ("/" ++ c) "/" = c := by
  have h : ("/" ++ c).data = '/' :: c.data := by
    rw [String.data_append]; rfl
  have h1 : ("/" : String).data = ['/'] := rfl
  unfold stringsTrimPrefix
  rw [h, h1]
  simp [List.isPrefixOf]

theorem pickCode_fresh (s : Store) (fuel : Nat) (src : Nat → Nat) (code : String)
    (h : pickCode s fuel src = some code) : s code = none := by
  induction fuel generalizing src with
  | zero => simp [pickCode] at h
  | succ n ih =>
    simp only [pickCode] at h
    by_cases hx : (s (generateShortCode 6 src)).isSome
    · rw [if_pos hx] at h
      exact ih _ h
    · rw [if_neg hx] at h
      cases h
      simpa using hx

/-- The generation loop ends as soon as one of the first `fuel` candidates is
not a key of the store. -/
theorem pickCode_isSome (s : Store) (fuel : Nat) (src : Nat → Nat) (k : Nat) (hk : k < fuel)
    (hfresh : s (generateShortCode 6 fun i => src (i + 6 * k)) = none) :
    (pickCode s fuel src).isSome := by
  induction fuel generalizing src k with
  | zero => omega
  | succ n ih =>
    simp only [pickCode]
    by_cases hx : (s (generateShortCode 6 src)).isSome
    · rw [if_pos hx]
      cases k with
      | zero =>
        simp only [Nat.mul_zero, Nat.add_zero] at hfresh
        simp [hfresh] at hx
      | succ j =>
        apply ih (fun i => src (i + 6)) j (by omega)
        have : (fun i => src (i + 6 + 6 * j)) = fun i => src (i + 6 * (j + 1)) := by
          funext i; congr 1; omega
        simpa [this] using hfresh
    · rw [if_neg hx]; rfl

/-- What a successful create looks like: the request was a POST with a decoded
body whose URL is non-empty, the chosen code was not a key, and the answer and
new store are those of `insertRecord`. -/
theorem create_created_inv (fmt : Instant → String) (src : Nat → Nat) (fuel : Nat)
    (now : Instant) (s : Store) (r : Request) (cr : CreateShortURLResponse) (s' : Store)
    (h : createShortURLHandler fmt src fuel now s r = some (.created cr, s')) :
    ∃ req code, r.Method = MethodPost ∧ r.Body = some req ∧ req.URL ≠ "" ∧ s code = none ∧
      (req.Shortcode ≠ "" → code = req.Shortcode) ∧
      cr = { ShortLink := host ++ code, Expiry := fmt (newRecord req now).Expiry } ∧
      s' = s.set code (newRecord req now) := by
  unfold createShortURLHandler at h
  by_cases hm : r.Method ≠ MethodPost
  · rw [if_pos hm] at h; simp at h
  · rw [if_neg hm] at h
    cases hb : r.Body with
    | none => rw [hb] at h; simp at h
    | some req =>
      rw [hb] at h
      simp only at h
      by_cases hu : req.URL = ""
      · rw [if_pos hu] at h; simp at h
      · rw [if_neg hu] at h
        by_cases hc : req.Shortcode = ""
        · rw [if_pos hc] at h
          cases hp : pickCode s fuel src with
          | none => rw [hp] at h; simp at h
          | some code =>
            rw [hp] at h
            simp only [insertRecord, Option.some.injEq, Prod.mk.injEq, Response.created.injEq] at h
            exact ⟨req, code, not_not.mp hm, rfl, hu, pickCode_fresh s fuel src code hp,
              fun hne => absurd hc hne, h.1.symm, h.2.symm⟩
        · rw [if_neg hc] at h
          by_cases he : (s req.Shortcode).isSome
          · rw [if_pos he] at h; simp at h
          · rw [if_neg he] at h
            simp only [insertRecord, Option.some.injEq, Prod.mk.injEq, Response.created.injEq] at h
            exact ⟨req, req.Shortcode, not_not.mp hm, rfl, hu, by simpa using he,
              fun _ => rfl, h.1.symm, h.2.symm⟩

/-- The answer of `redirectHandler` on a stored, unexpired code. -/
theorem redirect_live (parseURL : String → Option ParsedURL) (now nowClick : Instant) (s : Store) (q : Request) (d : URLData)
    (hs : s (stringsTrimPrefix q.Path "/") = some d) (hlive : now ≤ d.Expiry) :
    redirectHandler parseURL now nowClick s q =
      (.redirect (httpRedirectLocation parseURL q.Path d.OriginalURL) StatusFound,
       s.set (stringsTrimPrefix q.Path "/")
         { d with Clicks := d.Clicks ++ [{ Time := nowClick, Referrer := q.Referer, Geo := "IN" }] }) := by
  unfold redirectHandler
  simp only [hs]
  rw [if_neg (not_lt.mpr hlive)]

/-- The answer of `redirectHandler` on a stored code after its expiry. -/
theorem redirect_expired (parseURL : String → Option ParsedURL) (now nowClick : Instant) (s : Store) (q : Request) (d : URLData)
    (hs : s (stringsTrimPrefix q.Path "/") = some d) (hexp : now > d.Expiry) :
    redirectHandler parseURL now nowClick s q = (.error expiredMsg StatusGone, s) := by
  unfold redirectHandler
  simp only [hs]
  rw [if_pos hexp]

/-- The answer of `redirectHandler` on a code that is not a key. -/
theorem redirect_absent (parseURL : String → Option ParsedURL) (now nowClick : Instant) (s : Store) (q : Request)
    (hs : s (stringsTrimPrefix q.Path "/") = none) :
    redirectHandler parseURL now nowClick s q = (.error notFoundMsg StatusNotFound, s) := by
  unfold redirectHandler
  simp only [hs]

/-! ## Create then resolve -/

theorem hexEscapeNonASCII_of_ascii (u : String) (h : ∀ c ∈ u.data, c.toNat < 128) :
    hexEscapeNonASCII u = u := by
  have hdata : ∀ l : List Char, (∀ c ∈ l, c.toNat < 128) →
      (l.flatMap fun c =>
        if c.toNat < 128 then [c]
        else (utf8Bytes c).flatMap fun b => ['%', hexDigit (b / 16), hexDigit (b % 16)]) = l := by
    intro l
    induction l with
    | nil => intro _; rfl
    | cons c cs ih =>
      intro hl
      have hc : c.toNat < 128 := hl c (List.mem_cons_self _ _)
      rw [List.flatMap_cons, if_pos hc, ih (fun x hx => hl x (List.mem_cons_of_mem _ hx))]
      rfl
  unfold hexEscapeNonASCII
  rw [hdata u.data h]

/-- The `Location` set for a URL of ASCII characters that `url.Parse` rejects,
or in which it finds a scheme or a host, is the URL itself. -/
theorem httpRedirectLocation_absolute (parseURL : String → Option ParsedURL)
    (reqPath u : String) (hascii : ∀ c ∈ u.data, c.toNat < 128)
    (habs : ∀ p, parseURL u = some p → ¬ (p.Scheme = "" ∧ p.Host = "")) :
    httpRedirectLocation parseURL reqPath u = u := by
  unfold httpRedirectLocation
  cases hp : parseURL u with
  | none => exact hexEscapeNonASCII_of_ascii u hascii
  | some p =>
    simp only
    rw [if_neg (habs p hp)]
    exact hexEscapeNonASCII_of_ascii u hascii

theorem hexDigit_ascii (d : Nat) : (hexDigit d).toNat < 128 := by
  unfold hexDigit
  by_cases hd : d < 16
  · interval_cases d <;> decide
  · rw [List.getD_eq_default _ _ (by simpa [hexDigits] using not_lt.mp hd)]
    decide

/-- Every character of a `Location` is an ASCII character, so a URL with a
character outside ASCII is never sent as it is, whatever `url.Parse` finds. -/
theorem httpRedirectLocation_ascii (parseURL : String → Option ParsedURL)
    (reqPath u : String) : ∀ c ∈ (httpRedirectLocation parseURL reqPath u).data, c.toNat < 128 := by
  have hall : ∀ (w : String), ∀ c ∈ (hexEscapeNonASCII w).data, c.toNat < 128 := by
    intro w c hc
    simp only [hexEscapeNonASCII, List.mem_flatMap] at hc
    obtain ⟨a, _, hca⟩ := hc
    by_cases ha : a.toNat < 128
    · rw [if_pos ha] at hca
      simp only [List.mem_singleton] at hca
      rw [hca]; exact ha
    · rw [if_neg ha] at hca
      simp only [List.mem_flatMap, List.mem_cons, List.mem_singleton, List.not_mem_nil,
        or_false] at hca
      obtain ⟨b, _, h1 | h2 | h3⟩ := hca
      · rw [h1]; decide
      · rw [h2]; exact hexDigit_ascii _
      · rw [h3]; exact hexDigit_ascii _
  intro c hc
  exact hall _ c hc

/-- C1, as the code has it: if `createShortURLHandler` answers 201 with short
link `host ++ c`, then the request carried a non-empty URL `u`, the new store
holds under `c` a record with that URL and the expiry `e` rendered in the
answer, and `redirectHandler` on path `"/" ++ c` in the new store, at any
instant not after `e`, answers 302 with the `Location` that `http.Redirect`
makes of `u`; that `Location` is exactly `u` when `u` has only ASCII characters
and `url.Parse` rejects it or finds a scheme or a host in it. -/
theorem create_then_resolve (fmt : Instant → String) (parseURL : String → Option ParsedURL)
    (src : Nat → Nat) (fuel : Nat) (t0 : Instant) (s : Store) (r : Request)
    (cr : CreateShortURLResponse) (s' : Store)
    (hcreate : createShortURLHandler fmt src fuel t0 s r = some (.created cr, s')) :
    ∃ req c d, r.Body = some req ∧ req.URL ≠ "" ∧ cr.ShortLink = host ++ c ∧
      cr.Expiry = fmt d.Expiry ∧ s' c = some d ∧ d.OriginalURL = req.URL ∧
      ∀ (t1 t1click : Instant) (q : Request), q.Path = "/" ++ c → t1 ≤ d.Expiry →
        (redirectHandler parseURL t1 t1click s' q).1
          = .redirect (httpRedirectLocation parseURL q.Path req.URL) 302 ∧
        ((∀ ch ∈ req.URL.data, ch.toNat < 128) →
          (∀ p, parseURL req.URL = some p → ¬ (p.Scheme = "" ∧ p.Host = "")) →
          (redirectHandler parseURL t1 t1click s' q).1 = .redirect req.URL 302) := by
  obtain ⟨req, c, _, hb, hu, _, _, hcr, hs'⟩ := create_created_inv fmt src fuel t0 s r cr s' hcreate
  refine ⟨req, c, newRecord req t0, hb, hu, by rw [hcr], by rw [hcr], ?_, rfl, ?_⟩
  · rw [hs']; exact Store.set_same s c _
  · intro t1 t1click q hq ht
    have hlook : s' (stringsTrimPrefix q.Path "/") = some (newRecord req t0) := by
      rw [hq, stringsTrimPrefix_slash, hs']; exact Store.set_same s c _
    have hans : (redirectHandler parseURL t1 t1click s' q).1
        = .redirect (httpRedirectLocation parseURL q.Path req.URL) 302 := by
      rw [redirect_live parseURL t1 t1click s' q _ hlook ht]
      rfl
    refine ⟨hans, fun hascii habs => ?_⟩
    rw [hans, httpRedirectLocation_absolute parseURL q.Path req.URL hascii habs]

/-- C1 as amended, at a concrete input: the create of the spec's example,
handled at instant `1000` on the empty store. -/
theorem create_then_resolve_witness :
    ∃ req c d, sampleCreate.Body = some req ∧ req.URL ≠ "" ∧
      sampleCreated.ShortLink = host ++ c ∧ sampleCreated.Expiry = sampleFormat d.Expiry ∧
      sampleStore c = some d ∧ d.OriginalURL = req.URL ∧
      ∀ (t1 t1click : Instant) (q : Request), q.Path = "/" ++ c → t1 ≤ d.Expiry →
        (redirectHandler sampleParseURL t1 t1click sampleStore q).1
          = .redirect (httpRedirectLocation sampleParseURL q.Path req.URL) 302 ∧
        ((∀ ch ∈ req.URL.data, ch.toNat < 128) →
          (∀ p, sampleParseURL req.URL = some p → ¬ (p.Scheme = "" ∧ p.Host = "")) →
          (redirectHandler sampleParseURL t1 t1click sampleStore q).1 = .redirect req.URL 302) :=
  create_then_resolve sampleFormat sampleParseURL (fun i => i) 1 1000 emptyStore sampleCreate
    sampleCreated sampleStore (by rfl)

/-- C1 as stated fails: the URL `example.com`, created under `abc123` and
resolved on `/abc123` before its expiry, is answered 302 with `Location`
`/example.com`; and the URL `https://example.com/é` is answered with `Location`
`https://example.com/%c3%a9`. In neither case is the target the submitted URL. -/
theorem create_then_resolve_counterexample :
    createShortURLHandler sampleFormat (fun i => i) 1 1000 emptyStore schemelessCreate
      = some (.created { ShortLink := "http://localhost:8080/abc123",
                         Expiry := sampleFormat 1800000001000 }, schemelessStore) ∧
    (redirectHandler sampleParseURL 2000 2001 schemelessStore sampleVisit).1
      = .redirect "/example.com" 302 ∧
    (redirectHandler sampleParseURL 2000 2001 schemelessStore sampleVisit).1
      ≠ .redirect "example.com" 302 ∧
    createShortURLHandler sampleFormat (fun i => i) 1 1000 emptyStore accentCreate
      = some (.created { ShortLink := "http://localhost:8080/abc123",
                         Expiry := sampleFormat 1800000001000 }, accentStore) ∧
    (redirectHandler sampleParseURL 2000 2001 accentStore sampleVisit).1
      = .redirect "https://example.com/%c3%a9" 302 ∧
    (redirectHandler sampleParseURL 2000 2001 accentStore sampleVisit).1
      ≠ .redirect "https://example.com/é" 302 := by
  refine ⟨rfl, ?_, ?_, rfl, ?_, ?_⟩ <;> decide

/-! ## Rejected creates -/

/-- C2: a POST create whose URL is non-empty and whose explicit shortcode is
already a key answers 400 with body `{"error":"Shortcode already exists"}` and
leaves the store as it was. -/
theorem create_collision_rejected (fmt : Instant → String) (src : Nat → Nat) (fuel : Nat)
    (now : Instant) (s : Store) (r : Request) (req : CreateShortURLRequest)
    (hm : r.Method = MethodPost) (hb : r.Body = some req) (hu : req.URL ≠ "")
    (hc : req.Shortcode ≠ "") (hex : (s req.Shortcode).isSome) :
    createShortURLHandler fmt src fuel now s r
      = some (.error "\x7b\"error\":\"Shortcode already exists\"\x7d" 400, s) := by
  unfold createShortURLHandler
  rw [if_neg (not_not.mpr hm), hb]
  simp only
  rw [if_neg hu, if_neg hc, if_pos hex]
  rfl

/-- C2, at a concrete input: the spec's example create, repeated on the store
that already holds `abc123`. -/
theorem create_collision_rejected_witness :
    createShortURLHandler sampleFormat (fun i => i) 1 2000 sampleStore sampleCreate
      = some (.error "\x7b\"error\":\"Shortcode already exists\"\x7d" 400, sampleStore) :=
  create_collision_rejected sampleFormat (fun i => i) 1 2000 sampleStore sampleCreate
    sampleCreateBody (by decide) (by decide) (by decide) (by decide) (by decide)

/-- C8: a non-POST request answers 405, and a POST whose body does not decode
or whose URL is empty answers 400 with body
`{"error":"Invalid request body or missing URL"}`, whatever shortcode and
validity it carries and whether or not that shortcode is a key; in both cases
the store is left as it was. -/
theorem create_invalid_input (fmt : Instant → String) (src : Nat → Nat) (fuel : Nat)
    (now : Instant) (s : Store) (r : Request) :
    (r.Method ≠ MethodPost →
      ∃ body, createShortURLHandler fmt src fuel now s r = some (.error body 405, s)) ∧
    (r.Method = MethodPost → (r.Body = none ∨ ∃ req, r.Body = some req ∧ req.URL = "") →
      createShortURLHandler fmt src fuel now s r
        = some (.error "\x7b\"error\":\"Invalid request body or missing URL\"\x7d" 400, s)) := by
  constructor
  · intro hm
    refine ⟨"Method not allowed", ?_⟩
    unfold createShortURLHandler
    rw [if_pos hm]
    rfl
  · intro hm hbad
    unfold createShortURLHandler
    rw [if_neg (not_not.mpr hm)]
    rcases hbad with hb | ⟨req, hb, hu⟩
    · rw [hb]; rfl
    · rw [hb]
      simp only
      rw [if_pos hu]
      rfl

/-! ## Resolving -/

/-- C3: for a stored code with expiry `e`, `redirectHandler` answers 410 with
body `{"error":"Short URL has expired"}` exactly when `now > e`; at `now = e`
it answers 302 and at `e + 1` it answers 410. -/
theorem redirect_expiry_boundary (parseURL : String → Option ParsedURL) (now nowClick : Instant) (s : Store) (q : Request)
    (d : URLData) (hs : s (stringsTrimPrefix q.Path "/") = some d) :
    ((redirectHandler parseURL now nowClick s q).1
        = .error "\x7b\"error\":\"Short URL has expired\"\x7d" 410 ↔ now > d.Expiry) ∧
    ((redirectHandler parseURL now nowClick s q).1.status = 410 ↔ now > d.Expiry) ∧
    (redirectHandler parseURL d.Expiry nowClick s q).1
        = .redirect (httpRedirectLocation parseURL q.Path d.OriginalURL) 302 ∧
    (redirectHandler parseURL d.Expiry nowClick s q).1.status = 302 ∧
    (redirectHandler parseURL (d.Expiry + 1) nowClick s q).1
        = .error "\x7b\"error\":\"Short URL has expired\"\x7d" 410 := by
  have hlate : ∀ t : Instant, t > d.Expiry →
      (redirectHandler parseURL t nowClick s q).1
        = .error "\x7b\"error\":\"Short URL has expired\"\x7d" 410 := by
    intro t ht
    rw [redirect_expired parseURL t nowClick s q d hs ht]; rfl
  have hlive : ∀ t : Instant, t ≤ d.Expiry →
      (redirectHandler parseURL t nowClick s q).1
        = .redirect (httpRedirectLocation parseURL q.Path d.OriginalURL) 302 := by
    intro t ht
    rw [redirect_live parseURL t nowClick s q d hs ht]; rfl
  refine ⟨⟨?_, hlate now⟩, ⟨?_, ?_⟩, hlive _ (le_refl _), by rw [hlive _ (le_refl _)]; rfl,
    hlate _ (Int.lt_succ d.Expiry)⟩
  · intro h
    by_contra hn
    rw [hlive now (not_lt.mp hn)] at h
    cases h
  · intro h
    by_contra hn
    rw [hlive now (not_lt.mp hn)] at h
    simp [Response.status] at h
  · intro h
    rw [hlate now h]
    rfl

/-- C3, at a concrete input: the record of the spec's example, asked for at an
instant after its expiry. -/
theorem redirect_expiry_boundary_witness :
    ((redirectHandler sampleParseURL 60000001001 60000001002 sampleStore sampleVisit).1
        = .error "\x7b\"error\":\"Short URL has expired\"\x7d" 410
        ↔ (60000001001 : Instant) > sampleRecord.Expiry) ∧
    ((redirectHandler sampleParseURL 60000001001 60000001002 sampleStore sampleVisit).1.status
        = 410 ↔ (60000001001 : Instant) > sampleRecord.Expiry) ∧
    (redirectHandler sampleParseURL sampleRecord.Expiry 60000001002 sampleStore sampleVisit).1
        = .redirect (httpRedirectLocation sampleParseURL sampleVisit.Path
            sampleRecord.OriginalURL) 302 ∧
    (redirectHandler sampleParseURL sampleRecord.Expiry 60000001002 sampleStore
        sampleVisit).1.status = 302 ∧
    (redirectHandler sampleParseURL (sampleRecord.Expiry + 1) 60000001002 sampleStore
        sampleVisit).1 = .error "\x7b\"error\":\"Short URL has expired\"\x7d" 410 :=
  redirect_expiry_boundary sampleParseURL 60000001001 60000001002 sampleStore sampleVisit
    sampleRecord (by decide)

/-- C10: `redirectHandler` answers 404, 410 or 302. It answers 404 exactly when
the code is not a key and 410 only for a key whose expiry is before `now`; in
both cases the store after the call is the store before it. When it answers
302, the code's record has gained exactly one click at the end of its list
(the later clock reading, the request's referrer, geo `IN`), its other fields
are as before, and every other key maps to what it mapped to before. -/
theorem redirect_frame (parseURL : String → Option ParsedURL) (now nowClick : Instant) (s : Store) (q : Request) :
    ((redirectHandler parseURL now nowClick s q).1.status = 404 ∨
      (redirectHandler parseURL now nowClick s q).1.status = 410 ∨
      (redirectHandler parseURL now nowClick s q).1.status = 302) ∧
    ((redirectHandler parseURL now nowClick s q).1.status = 404
      ↔ s (stringsTrimPrefix q.Path "/") = none) ∧
    ((redirectHandler parseURL now nowClick s q).1.status = 410
      ↔ ∃ d, s (stringsTrimPrefix q.Path "/") = some d ∧ now > d.Expiry) ∧
    ((redirectHandler parseURL now nowClick s q).1.status = 404 ∨
      (redirectHandler parseURL now nowClick s q).1.status = 410 →
        (redirectHandler parseURL now nowClick s q).2 = s) ∧
    ((redirectHandler parseURL now nowClick s q).1.status = 302 →
      ∃ d, s (stringsTrimPrefix q.Path "/") = some d ∧
        (redirectHandler parseURL now nowClick s q).2 (stringsTrimPrefix q.Path "/")
          = some { OriginalURL := d.OriginalURL, CreatedAt := d.CreatedAt, Expiry := d.Expiry,
                   Clicks := d.Clicks ++ [{ Time := nowClick, Referrer := q.Referer, Geo := "IN" }] } ∧
        ∀ k, k ≠ stringsTrimPrefix q.Path "/" →
          (redirectHandler parseURL now nowClick s q).2 k = s k) := by
  cases hs : s (stringsTrimPrefix q.Path "/") with
  | none =>
    rw [redirect_absent parseURL now nowClick s q hs]
    simp [Response.status, StatusNotFound]
  | some d =>
    by_cases hexp : now > d.Expiry
    · rw [redirect_expired parseURL now nowClick s q d hs hexp]
      simp [Response.status, StatusGone, hexp]
    · rw [redirect_live parseURL now nowClick s q d hs (not_lt.mp hexp)]
      simp only [Response.status, StatusFound]
      refine ⟨by simp, by simp, ?_, by simp, ?_⟩
      · simp [hexp]
      · intro _
        exact ⟨d, rfl, Store.set_same _ _ _, fun k hk => Store.set_other _ _ _ _ hk⟩

/-! ## Statistics -/

theorem splitChars_of_not_mem (sep : Char) (cs : List Char) (h : sep ∉ cs) :
    splitChars sep cs = [cs] := by
  induction cs with
  | nil => rfl
  | cons c cs ih =>
    simp only [List.mem_cons, not_or] at h
    have hc : c ≠ sep := fun e => h.1 e.symm
    simp [splitChars, hc, ih h.2]

theorem splitChars_append (sep : Char) (pre cs : List Char) (h : sep ∉ pre) :
    splitChars sep (pre ++ sep :: cs) = pre :: splitChars sep cs := by
  induction pre with
  | nil => simp [splitChars]
  | cons c pre ih =>
    simp only [List.mem_cons, not_or] at h
    have hc : c ≠ sep := fun e => h.1 e.symm
    simp [splitChars, hc, ih h.2]

theorem splitChars_length_of_mem (sep : Char) (cs : List Char) (h : sep ∈ cs) :
    2 ≤ (splitChars sep cs).length := by
  induction cs with
  | nil => simp at h
  | cons c cs ih =>
    by_cases hc : c = sep
    · have hpos : 1 ≤ (splitChars sep cs).length := by
        cases cs with
        | nil => simp [splitChars]
        | cons x xs =>
          simp only [splitChars]
          split
          · simp
          · split <;> simp
      simp only [splitChars, hc, if_true, List.length_cons]
      omega
    · have hmem : sep ∈ cs := by
        rcases List.mem_cons.mp h with e | e
        · exact absurd e.symm hc
        · exact e
      have := ih hmem
      simp only [splitChars, hc, if_false]
      split
      · next e => rw [e] at this; simp at this
      · next p ps e => rw [e] at this; simpa using this

theorem statsPath_data (code : String) :
    ("/shorturls/" ++ code).data = [] ++ '/' :: ("shorturls".data ++ '/' :: code.data) := by
  rw [String.data_append]; rfl

/-- The stats path of a code without `/` splits into three parts, the third
being the code. -/
theorem stringsSplit_statsPath (code : String) (h : '/' ∉ code.data) :
    stringsSplit ("/shorturls/" ++ code) '/' = ["", "shorturls", code] := by
  unfold stringsSplit
  rw [statsPath_data, splitChars_append '/' [] _ (by simp),
    splitChars_append '/' "shorturls".data _ (by decide), splitChars_of_not_mem '/' _ h]
  rfl

/-- The stats path of a code containing `/` is answered 400 `Invalid path`,
whatever the store holds. -/
theorem stats_slash_invalid (fmt : Instant → String) (s : Store) (q : Request) (code : String)
    (hq : q.Path = "/shorturls/" ++ code) (h : '/' ∈ code.data) :
    statsHandler fmt s q = .error invalidPathMsg StatusBadRequest := by
  have hlen : 2 ≤ (splitChars '/' code.data).length := splitChars_length_of_mem '/' _ h
  have hsplit : stringsSplit q.Path '/'
      = "" :: "shorturls" :: (splitChars '/' code.data).map String.mk := by
    unfold stringsSplit
    rw [hq, statsPath_data, splitChars_append '/' [] _ (by simp),
      splitChars_append '/' "shorturls".data _ (by decide)]
    rfl
  unfold statsHandler
  rw [hsplit]
  cases hp : splitChars '/' code.data with
  | nil => rw [hp] at hlen; simp at hlen
  | cons a rest =>
    cases rest with
    | nil => rw [hp] at hlen; simp at hlen
    | cons b rest2 => rfl

/-- The answer of `statsHandler` on a path whose third part is a stored code. -/
theorem stats_found (fmt : Instant → String) (s : Store) (q : Request) (a b code : String)
    (d : URLData) (hq : stringsSplit q.Path '/' = [a, b, code]) (hs : s code = some d) :
    statsHandler fmt s q =
      .stats { totalClicks := d.Clicks.length, originalURL := d.OriginalURL,
               createdAt := fmt d.CreatedAt, expiry := fmt d.Expiry, clicks := d.Clicks } := by
  unfold statsHandler
  rw [hq]
  simp only [hs]

/-- The answer of `statsHandler` on a path whose third part is not a key. -/
theorem stats_absent (fmt : Instant → String) (s : Store) (q : Request) (a b code : String)
    (hq : stringsSplit q.Path '/' = [a, b, code]) (hs : s code = none) :
    statsHandler fmt s q = .error notFoundMsg StatusNotFound := by
  unfold statsHandler
  rw [hq]
  simp only [hs]

/-- C7, as the code has it: for a code that contains no `/`, `statsHandler` on
path `"/shorturls/" ++ code` answers 200 with the record's URL, creation
instant, expiry and clicks and `totalClicks` the length of the click list
whenever the code is a key, whatever the record's expiry (the handler reads no
clock); and it answers 404 `Shortcode not found` exactly when the code is not
a key. -/
theorem stats_ignores_expiry (fmt : Instant → String) (s : Store) (q : Request)
    (code : String) (hq : q.Path = "/shorturls/" ++ code) (hslash : '/' ∉ code.data) :
    (∀ d, s code = some d →
      (statsHandler fmt s q).status = 200 ∧
      statsHandler fmt s q =
        .stats { totalClicks := d.Clicks.length, originalURL := d.OriginalURL,
                 createdAt := fmt d.CreatedAt, expiry := fmt d.Expiry, clicks := d.Clicks }) ∧
    (statsHandler fmt s q = .error "\x7b\"error\":\"Shortcode not found\"\x7d" 404
      ↔ s code = none) ∧
    ((statsHandler fmt s q).status = 404 ↔ s code = none) := by
  have hsplit : stringsSplit q.Path '/' = ["", "shorturls", code] := by
    rw [hq]; exact stringsSplit_statsPath code hslash
  have hfound : ∀ d, s code = some d →
      statsHandler fmt s q =
        .stats { totalClicks := d.Clicks.length, originalURL := d.OriginalURL,
                 createdAt := fmt d.CreatedAt, expiry := fmt d.Expiry, clicks := d.Clicks } :=
    fun d hd => stats_found fmt s q _ _ code d hsplit hd
  refine ⟨fun d hd => ⟨by rw [hfound d hd]; rfl, hfound d hd⟩, ⟨?_, ?_⟩, ⟨?_, ?_⟩⟩
  · intro h
    cases hs : s code with
    | none => rfl
    | some d => rw [hfound d hs] at h; cases h
  · intro hs
    rw [stats_absent fmt s q _ _ code hsplit hs]; rfl
  · intro h
    cases hs : s code with
    | none => rfl
    | some d => rw [hfound d hs] at h; simp [Response.status, StatusOK] at h
  · intro hs
    rw [stats_absent fmt s q _ _ code hsplit hs]; rfl

/-- C7 as amended, at a concrete input: the stats request of the spec's example. -/
theorem stats_ignores_expiry_witness :
    (∀ d, sampleStore "abc123" = some d →
      (statsHandler sampleFormat sampleStore sampleStats).status = 200 ∧
      statsHandler sampleFormat sampleStore sampleStats =
        .stats { totalClicks := d.Clicks.length, originalURL := d.OriginalURL,
                 createdAt := sampleFormat d.CreatedAt, expiry := sampleFormat d.Expiry,
                 clicks := d.Clicks }) ∧
    (statsHandler sampleFormat sampleStore sampleStats
        = .error "\x7b\"error\":\"Shortcode not found\"\x7d" 404
      ↔ sampleStore "abc123" = none) ∧
    ((statsHandler sampleFormat sampleStore sampleStats).status = 404
      ↔ sampleStore "abc123" = none) :=
  stats_ignores_expiry sampleFormat sampleStore sampleStats "abc123" (by decide) (by decide)

/-- C7 as stated fails: the code `a/b`, accepted by `createShortURLHandler` and
stored, is answered 400 `Invalid path` by `statsHandler` on `/shorturls/a/b`. -/
theorem stats_slash_code_counterexample :
    createShortURLHandler sampleFormat (fun i => i) 1 1000 emptyStore slashCreate
      = some (.created { ShortLink := "http://localhost:8080/a/b",
                         Expiry := sampleFormat 60000001000 }, slashStore) ∧
    slashStore "a/b" = some sampleRecord ∧
    slashStats.Path = "/shorturls/" ++ "a/b" ∧
    statsHandler sampleFormat slashStore slashStats
      = .error "\x7b\"error\":\"Invalid path\"\x7d" 400 ∧
    (statsHandler sampleFormat slashStore slashStats).status ≠ 200 := by
  refine ⟨rfl, rfl, rfl, ?_, ?_⟩ <;> decide

/-! ## Click accounting -/

/-- A create leaves the store as it was or writes one record under a code that
was not a key. -/
theorem create_store_inv (fmt : Instant → String) (src : Nat → Nat) (fuel : Nat)
    (now : Instant) (s : Store) (r : Request) (resp : Response) (s' : Store)
    (h : createShortURLHandler fmt src fuel now s r = some (resp, s')) :
    s' = s ∨ ∃ code data, s code = none ∧ s' = s.set code data := by
  cases resp with
  | created cr =>
    obtain ⟨req, code, _, _, _, hfresh, _, _, hs'⟩ :=
      create_created_inv fmt src fuel now s r cr s' h
    exact Or.inr ⟨code, _, hfresh, hs'⟩
  | error body st =>
    left
    unfold createShortURLHandler at h
    by_cases hm : r.Method ≠ MethodPost
    · rw [if_pos hm] at h
      simp only [Option.some.injEq, Prod.mk.injEq] at h
      exact h.2.symm
    · rw [if_neg hm] at h
      cases hb : r.Body with
      | none =>
        rw [hb] at h
        simp only [Option.some.injEq, Prod.mk.injEq] at h
        exact h.2.symm
      | some req =>
        rw [hb] at h
        simp only at h
        by_cases hu : req.URL = ""
        · rw [if_pos hu] at h
          simp only [Option.some.injEq, Prod.mk.injEq] at h
          exact h.2.symm
        · rw [if_neg hu] at h
          by_cases hc : req.Shortcode = ""
          · rw [if_pos hc] at h
            cases hp : pickCode s fuel src with
            | none => rw [hp] at h; simp at h
            | some code => rw [hp] at h; simp [insertRecord] at h
          · rw [if_neg hc] at h
            by_cases he : (s req.Shortcode).isSome
            · rw [if_pos he] at h
              simp only [Option.some.injEq, Prod.mk.injEq] at h
              exact h.2.symm
            · rw [if_neg he] at h; simp [insertRecord] at h
  | redirect url st =>
    exfalso
    unfold createShortURLHandler at h
    split_ifs at h <;> try simp at h
    all_goals (split at h <;> try simp at h)
    all_goals (split_ifs at h <;> try simp [insertRecord] at h)
    all_goals (split at h <;> simp [insertRecord] at h)
  | stats sr =>
    exfalso
    unfold createShortURLHandler at h
    split_ifs at h <;> try simp at h
    all_goals (split at h <;> try simp at h)
    all_goals (split_ifs at h <;> try simp [insertRecord] at h)
    all_goals (split at h <;> simp [insertRecord] at h)

theorem Preserved.refl (s : Store) : Preserved s s :=
  fun _ d hd => ⟨d, hd, rfl, rfl, rfl, List.prefix_refl _⟩

/-- A create with a requested code always returns, and a create without one
returns as soon as the generation loop does. -/
theorem create_returns (fmt : Instant → String) (src : Nat → Nat) (fuel : Nat)
    (now : Instant) (s : Store) (r : Request)
    (h : (∀ req, r.Body = some req → req.Shortcode = "" → (pickCode s fuel src).isSome)) :
    (createShortURLHandler fmt src fuel now s r).isSome := by
  unfold createShortURLHandler
  split_ifs
  · rfl
  · cases hb : r.Body with
    | none => rfl
    | some req =>
      simp only
      split_ifs with hu hc he
      · rfl
      · have := h req hb hc
        cases hp : pickCode s fuel src with
        | none => rw [hp] at this; simp at this
        | some code => rfl
      · rfl
      · rfl

/-- C9: whatever operation is run on whatever store, each key of the store
before it is a key of the store after it with the same URL, creation instant
and expiry, and its click list before is an initial segment of its click list
after. -/
theorem registry_invariant (fmt : Instant → String) (parseURL : String → Option ParsedURL) 
    (s : Store) (op : Op) (resp : Response) (s' : Store) (h : applyOp fmt parseURL s op = some (resp, s')) : Preserved s s' := by
  cases op with
  | create src fuel now r =>
    rcases create_store_inv fmt src fuel now s r resp s' h with hs | ⟨code, data, hfresh, hs⟩
    · rw [hs]; exact Preserved.refl s
    · intro k d hd
      have hk : k ≠ code := by
        intro e; rw [e, hfresh] at hd; cases hd
      exact ⟨d, by rw [hs, Store.set_other _ _ _ _ hk]; exact hd, rfl, rfl, rfl,
        List.prefix_refl _⟩
  | resolve now nowClick r =>
    simp only [applyOp, Option.some.injEq] at h
    cases hs : s (stringsTrimPrefix r.Path "/") with
    | none =>
      rw [redirect_absent parseURL now nowClick s r hs] at h
      cases h; exact Preserved.refl s
    | some d0 =>
      by_cases hexp : now > d0.Expiry
      · rw [redirect_expired parseURL now nowClick s r d0 hs hexp] at h
        cases h; exact Preserved.refl s
      · rw [redirect_live parseURL now nowClick s r d0 hs (not_lt.mp hexp)] at h
        cases h
        intro k d hd
        by_cases hk : k = stringsTrimPrefix r.Path "/"
        · rw [hk, hs] at hd
          cases hd
          exact ⟨{ d0 with Clicks := d0.Clicks ++
              [{ Time := nowClick, Referrer := r.Referer, Geo := "IN" }] },
            by rw [hk]; exact Store.set_same _ _ _, rfl, rfl, rfl, List.prefix_append _ _⟩
        · exact ⟨d, by rw [Store.set_other _ _ _ _ hk]; exact hd, rfl, rfl, rfl,
            List.prefix_refl _⟩
  | stats r =>
    simp only [applyOp, Option.some.injEq, Prod.mk.injEq] at h
    rw [← h.2]; exact Preserved.refl s

/-- C9, at a concrete input: a visit of the spec's example code. -/
theorem registry_invariant_witness :
    Preserved sampleStore
      (sampleStore.set "abc123"
        { sampleRecord with Clicks := [{ Time := 2001, Referrer := "https://ref.example", Geo := "IN" }] }) :=
  registry_invariant sampleFormat sampleParseURL sampleStore (.resolve 2000 2001 sampleVisit)
    (.redirect "https://example.com" 302) _ (by rfl)

/-! ## The validity window -/

theorem wrapInt64_of_bounds (x : Int) (hlo : -2 ^ 63 ≤ x) (hhi : x < 2 ^ 63) :
    wrapInt64 x = x := by
  unfold wrapInt64
  rw [Int.emod_eq_of_lt (by omega) (by omega)]
  omega

/-- The record of a create: created at `now`, no clicks, the submitted URL; and
while the requested minutes (30 for 0) fit a 64-bit count of nanoseconds, the
expiry is `now` plus that many minutes. -/
theorem newRecord_fields (req : CreateShortURLRequest) (now : Instant) :
    (newRecord req now).CreatedAt = now ∧ (newRecord req now).Clicks = [] ∧
    (newRecord req now).OriginalURL = req.URL ∧
    (-2 ^ 63 ≤ (if req.Validity = 0 then 30 else req.Validity) * Minute →
      (if req.Validity = 0 then 30 else req.Validity) * Minute < 2 ^ 63 →
      (newRecord req now).Expiry
        = now + (if req.Validity = 0 then 30 else req.Validity) * Minute) := by
  refine ⟨rfl, rfl, rfl, fun hlo hhi => ?_⟩
  simp only [newRecord, defaultValidityMinutes]
  rw [wrapInt64_of_bounds _ hlo hhi]

/-- Every successful create inserts `newRecord` under the code of its short
link and returns that record's expiry, rendered. -/
theorem create_inserts_newRecord (fmt : Instant → String) (src : Nat → Nat) (fuel : Nat)
    (now : Instant) (s : Store) (r : Request) (cr : CreateShortURLResponse) (s' : Store)
    (h : createShortURLHandler fmt src fuel now s r = some (.created cr, s')) :
    ∃ req code, r.Body = some req ∧ cr.ShortLink = host ++ code ∧
      s' code = some (newRecord req now) ∧ cr.Expiry = fmt (newRecord req now).Expiry := by
  obtain ⟨req, code, _, hb, _, _, _, hcr, hs'⟩ := create_created_inv fmt src fuel now s r cr s' h
  exact ⟨req, code, hb, by rw [hcr], by rw [hs']; exact Store.set_same _ _ _, by rw [hcr]⟩

/-- C5 fails on the code at validity 153722868: the create succeeds, and the
record it inserts at instant `1000` expires at `1000 - 9223371993709551616`,
before its own creation, not at `1000 + 153722868` minutes. -/
theorem create_validity_overflow :
    ∃ cr s' d,
      createShortURLHandler sampleFormat (fun i => i) 1 1000 emptyStore overflowCreate
        = some (.created cr, s') ∧
      s' "abc123" = some d ∧ d.CreatedAt = 1000 ∧
      d.Expiry = 1000 - 9223371993709551616 ∧
      d.Expiry ≠ 1000 + 153722868 * Minute ∧
      d.Expiry < d.CreatedAt ∧
      (redirectHandler sampleParseURL 1000 1000 s' sampleVisit).1.status = 410 :=
  ⟨_, _, newRecord { URL := "https://example.com", Validity := 153722868, Shortcode := "abc123" } 1000,
    rfl, rfl, rfl, by decide, by decide, by decide, by decide⟩

/-! ## Concurrent creates -/

/-- A call with a requested code that runs its two steps with no other call in
between does what `createShortURLHandler` does. -/
theorem stepCall_alone_explicit (fmt : Instant → String) (src : Nat → Nat) (s : Store)
    (req : CreateShortURLRequest) (now : Instant) (r : Request)
    (hm : r.Method = MethodPost) (hb : r.Body = some req) (hu : req.URL ≠ "")
    (hc : req.Shortcode ≠ "") :
    ∃ resp s', createShortURLHandler fmt src 0 now s r = some (resp, s') ∧
      (runSchedule fmt src ⟨s, 0, [⟨req, now, .checking⟩]⟩ [0, 0]).store = s' ∧
      (runSchedule fmt src ⟨s, 0, [⟨req, now, .checking⟩]⟩ [0, 0]).calls
        = [⟨req, now, .answered resp⟩] := by
  unfold createShortURLHandler
  rw [if_neg (not_not.mpr hm), hb]
  simp only
  rw [if_neg hu, if_neg hc]
  by_cases he : (s req.Shortcode).isSome
  · rw [if_pos he]
    refine ⟨_, _, rfl, ?_, ?_⟩ <;>
      simp [runSchedule, stepCall, hc, he]
  · rw [if_neg he]
    refine ⟨_, _, rfl, ?_, ?_⟩ <;>
      simp [runSchedule, stepCall, insertRecord, hc, he]

/-- A call without a requested code whose first generated code is not a key,
running its two steps with no other call in between, does what
`createShortURLHandler` does. -/
theorem stepCall_alone_generated (fmt : Instant → String) (src : Nat → Nat) (s : Store)
    (req : CreateShortURLRequest) (now : Instant) (r : Request)
    (hm : r.Method = MethodPost) (hb : r.Body = some req) (hu : req.URL ≠ "")
    (hc : req.Shortcode = "") (hfresh : s (generateShortCode 6 src) = none) :
    ∃ resp s', createShortURLHandler fmt src 1 now s r = some (resp, s') ∧
      (runSchedule fmt src ⟨s, 0, [⟨req, now, .checking⟩]⟩ [0, 0]).store = s' ∧
      (runSchedule fmt src ⟨s, 0, [⟨req, now, .checking⟩]⟩ [0, 0]).calls
        = [⟨req, now, .answered resp⟩] := by
  unfold createShortURLHandler
  rw [if_neg (not_not.mpr hm), hb]
  simp only
  rw [if_neg hu, if_pos hc]
  simp only [pickCode, hfresh, Option.isSome_none, Bool.false_eq_true, if_false]
  refine ⟨_, _, rfl, ?_, ?_⟩ <;>
    simp [runSchedule, stepCall, insertRecord, hc, hfresh]

/-- C6 fails on the code: two creates without a requested code, both looking
up before either writes, both answer 201 with the same short link
`http://localhost:8080/abcdef`, and the map ends with that one key, holding the
second call's URL. Run one after the other on the same draws, the two calls
end with the two keys `abcdef` and `bcdefg`. -/
theorem concurrent_creates_collide :
    (runSchedule sampleFormat raceDraws raceStart [0, 1, 0, 1]).calls.map (fun c => c.phase)
      = [.answered (.created { ShortLink := "http://localhost:8080/abcdef",
                               Expiry := sampleFormat 1800000001000 }),
         .answered (.created { ShortLink := "http://localhost:8080/abcdef",
                               Expiry := sampleFormat 1800000002000 })] ∧
    (∀ k, k ≠ "abcdef" →
      (runSchedule sampleFormat raceDraws raceStart [0, 1, 0, 1]).store k = none) ∧
    ((runSchedule sampleFormat raceDraws raceStart [0, 1, 0, 1]).store "abcdef").map
        (fun d => d.OriginalURL) = some "https://b.example" ∧
    ((runSchedule sampleFormat raceDraws raceStart [0, 0, 1, 1, 1]).store "abcdef").map
        (fun d => d.OriginalURL) = some "https://a.example" ∧
    ((runSchedule sampleFormat raceDraws raceStart [0, 0, 1, 1, 1]).store "bcdefg").map
        (fun d => d.OriginalURL) = some "https://b.example" := by
  refine ⟨by rfl, ?_, by rfl, by rfl, by rfl⟩
  intro k hk
  have hstore : (runSchedule sampleFormat raceDraws raceStart [0, 1, 0, 1]).store
      = (emptyStore.set "abcdef" (newRecord ⟨"https://a.example", 0, ""⟩ 1000)).set "abcdef"
          (newRecord ⟨"https://b.example", 0, ""⟩ 2000) := by rfl
  rw [hstore]
  simp [Store.set, hk, emptyStore]

end URLShortener
